import Mathlib

/-!
Verification of the `id2xml` command-line driver (`src/id2xml/run.py`).

The development shallowly embeds the driver's post-argument-parsing logic
(`run`, lines 72-239 of `src/id2xml/run.py`) as pure functions over an explicit
file-system model, recording the observable effects (stdout/stderr writes,
input-file opens, output-file writes, calls into the conversion engine) as an
ordered event trace.  Collaborators that live outside `src/` — the `utils`
module (`strip_pagebreaks`, `stream_names`, `wrap`, `Options`) and the
`parser` module (`DraftParser`) — are modelled from the specification, and
each such definition says so in its doc comment.  Command-line argument
parsing (argparse) is modelled at the level of exact option tokens.
-/

namespace Id2xml

/-- Parsed command-line options: one field per argparse destination registered
in `run` (src/id2xml/run.py, lines 143-171), with `schema` defaulting to
`"v2"` via `set_defaults`. -/
structure Options where
  DRAFT : List String
  schema : String
  debug : Bool
  doc_consensus : Option String
  doc_ipr : Option String
  doc_stream : Option String
  output_file : Option String
  output_path : Option String
  quiet : Bool
  strip_only : Bool
  trace_start_regex : Option String
  trace_stop_regex : String
  trace_start_line : Option Int
  trace_stop_line : Option Int
  trace_methods : Option (List String)
  version : Bool
  verbose : Bool
deriving DecidableEq, Repr

/-- Python truthiness of an optional string: `None` and the empty string are falsy. -/
def truthy : Option String → Bool
  | none => false
  | some s => s != ""

/-- Python truthiness of an optional integer: `None` and `0` are falsy. -/
def truthyI : Option Int → Bool
  | none => false
  | some n => n != 0

/-- Modelled from the spec: `stream_names` is imported from `utils`, which is
not under `src/`; the spec fixes the enumeration of valid stream values to
IETF, IAB, IRTF, independent. -/
def stream_names : List String := ["IETF", "IAB", "IRTF", "independent"]

/-- A numbered source line as produced by the line reader: original line
number and text (the `.txt` field is what `run` joins when writing stripped
output). -/
structure Line where
  num : Nat
  txt : String
deriving DecidableEq, Repr

/-- Split a character list on a separator character; mirrors Python
`str.split` with a one-character separator. -/
def splitChar (sep : Char) : List Char → List (List Char)
  | [] => [[]]
  | c :: cs =>
    if c == sep then [] :: splitChar sep cs
    else match splitChar sep cs with
      | [] => [[c]]
      | r :: rs => (c :: r) :: rs

/-- Split raw text into its physical lines. -/
def splitLines (txt : String) : List String :=
  (splitChar (Char.ofNat 10) txt.toList).map (fun l => String.mk l)

/-- Number the lines of a text in order, starting from zero. -/
def numberLines (ls : List String) : List Line :=
  ls.enum.map (fun p => Line.mk p.1 p.2)

/-- Modelled from the spec: a page-boundary artifact line either contains the
form-feed character or matches the recurring running header/footer template
`tmpl` detected for the document. -/
def isArtifact (tmpl : String → Bool) (s : String) : Bool :=
  s.toList.contains (Char.ofNat 12) || tmpl s

/-- Modelled from the spec: the core of `strip_pagebreaks` (module `utils`,
not under `src/`): lines matching the page-break artifact test are dropped,
all other lines pass through unchanged with their numbering preserved. -/
def stripLines (tmpl : String → Bool) (ls : List Line) : List Line :=
  ls.filter (fun l => !(isArtifact tmpl (l.txt)))

/-- Modelled from the spec: `strip_pagebreaks` (module `utils`, not under
`src/`) numbers the physical lines of the text and removes page-break
artifact lines; the call site in `run` (line 225) discards the second
component of its result, so only the cleaned line sequence is modelled. -/
def strip_pagebreaks (tmpl : String → Bool) (txt : String) : List Line :=
  stripLines tmpl (numberLines (splitLines txt))

/-- Final component of a path (pathlib `Path.name`). -/
def fileName (p : String) : String :=
  String.mk ((splitChar (Char.ofNat 47) p.toList).getLastD p.toList)

/-- Split a file name into pathlib stem and suffix: the suffix starts at the
last dot of the name, provided that dot is neither the first nor the last
character; otherwise the suffix is empty. -/
def nameSplit (nm : String) : String × String :=
  let cs := nm.toList
  match cs.reverse.findIdx? (fun c => c == Char.ofNat 46) with
  | none => (nm, "")
  | some ri =>
    if ri == 0 || ri == cs.length - 1 then (nm, "")
    else (String.mk (cs.take (cs.length - 1 - ri)), String.mk (cs.drop (cs.length - 1 - ri)))

/-- pathlib `Path.stem` of the final component of a path. -/
def stem (p : String) : String := (nameSplit (fileName p)).1

/-- The directory part of a path: everything up to the final component. -/
def dirPart (p : String) : String :=
  String.mk (p.toList.take (p.length - (fileName p).length))

/-- pathlib `Path.with_suffix`: replace the suffix of the final path
component (append when there is none). -/
def withSuffix (p : String) (suffix : String) : String :=
  dirPart p ++ (nameSplit (fileName p)).1 ++ suffix

/-- pathlib `/` on paths: join a directory and a file name. -/
def pathJoin (d nm : String) : String := d ++ "/" ++ nm

/-- The file system visible to one run: a mapping from path to content.
Opening a missing path for reading raises an exception. -/
structure FS where
  files : List (String × String)
deriving DecidableEq, Repr

/-- Read the content of a path, `none` when the path does not exist. -/
def FS.read? (fs : FS) (p : String) : Option String :=
  (fs.files.find? (fun e => e.1 == p)).map (fun e => e.2)

/-- pathlib `Path.exists`. -/
def FS.existsFile (fs : FS) (p : String) : Bool := (fs.read? p).isSome

/-- Writing a file creates or replaces it; writing to standard output does
not touch the file system. -/
def FS.write (fs : FS) (p content : String) : FS :=
  if p == "<stdout>" then fs else FS.mk ((p, content) :: fs.files)

deriving instance DecidableEq for Except

/-- Observable effects of a run, in order: a write to standard output or to
an output file (destination, content), a write to standard error, an
input-file open, and a call into the conversion engine recording the file
name and the schema passed to it. -/
inductive Event where
  | outWrite : String → String → Event
  | errWrite : String → Event
  | fileRead : String → Event
  | convertCall : String → String → Event
deriving DecidableEq, Repr

/-- Final state of the process: `sys.exit(code)`, an uncaught exception, or
normal completion of the file loop. -/
inductive Outcome where
  | exited : Nat → Outcome
  | raised : String → Outcome
  | finished : Outcome
deriving DecidableEq, Repr

/-- Test for a write to standard output or to an output file. -/
def isOutWrite : Event → Bool
  | Event.outWrite _ _ => true
  | _ => false

/-- External collaborators of `run` that live outside `src/`: the `wrap`
text formatter from `utils`, and the page-break template predicate detected
by `strip_pagebreaks`. -/
structure Collab where
  wrap : String → String
  tmpl : String → Bool

/-- Quote a string in single quotes, as Python `repr`-style messages do. -/
def quoted (s : String) : String := "\x27" ++ s ++ "\x27"

/-- The `note` helper of `run` (src/id2xml/run.py, lines 107-110): the
wrapped message followed by a newline goes to stderr unless quiet is set. -/
def noteEvents (c : Collab) (o : Options) (s : String) : List Event :=
  if o.quiet then [] else [Event.errWrite (c.wrap (s ++ "\n"))]

/-- The `die` helper of `run` (src/id2xml/run.py, lines 113-116): the
wrapped error message goes to stderr and the process exits with status 1. -/
def dieEvents (c : Collab) (program s : String) : List Event :=
  [Event.errWrite (c.wrap ("\n" ++ program ++ ": Error:  " ++ s ++ "\n\n"))]

/-- Error text for mutually exclusive -o / -p (src/id2xml/run.py, line 186). -/
def mutualMsg : String := "Mutually exclusive options -o / -p; use one or the other"

/-- Error text for an invalid stream value (src/id2xml/run.py, line 195). -/
def streamMsg (v : String) : String :=
  "Expected one of " ++ String.intercalate ", " stream_names ++ " for stream, but got " ++ quoted v

/-- Error text for a trace start condition without a stop condition
(src/id2xml/run.py, line 199). -/
def traceMsg : String :=
  "If you set a trace start condition, you must also set a trace stop condition"

/-- Error text for an existing implied output file (src/id2xml/run.py,
lines 218-220). -/
def impliedMsg (outf program : String) : String :=
  "The implied output file (" ++ outf ++ ") already exists.  Provide an explicit output filename (with -o) or a directory path (with -p) if you want " ++ program ++ " to overwrite an existing file."

/-- The message of the exception raised when opening a missing input file. -/
def ioError (p : String) : String := "[Errno 2] No such file or directory: " ++ quoted p

/-- The per-file failure report of `run` (src/id2xml/run.py, line 238),
written directly to stderr with the file name and the exception text. -/
def failureMsg (nm cause : String) : String :=
  "Failure converting " ++ nm ++ ": " ++ cause ++ "\n"

/-- The line printed by the `-V` branch (src/id2xml/run.py, line 182). -/
def versionLine (program version : String) : String := program ++ " " ++ version ++ "\n"

/-- Modelled from the spec: `DraftParser.parse_to_xml` (module `parser`, not
under `src/`).  The spec specifies the engine as a deterministic function of
the input text and the structured options, with quiet/verbose affecting only
diagnostic verbosity (never parsing), the stream/ipr/consensus overrides
taking precedence, and failure surfacing as an exception at the call site.
The XML text itself is abstracted to a single root element carrying the
schema version and the overrides around the cleaned body text. -/
def parse_to_xml (tmpl : String → Bool) (nm txt schema : String)
    (stream ipr consensus : Option String) : Except String String :=
  let body := String.intercalate "\n" ((strip_pagebreaks tmpl txt).map Line.txt)
  if body == "" then Except.error ("no content in " ++ nm)
  else Except.ok ("<rfc schema=" ++ quoted schema
    ++ (match stream with | some s => " stream=" ++ quoted s | none => "")
    ++ (match ipr with | some s => " ipr=" ++ quoted s | none => "")
    ++ (match consensus with | some s => " consensus=" ++ quoted s | none => "")
    ++ ">" ++ body ++ "</rfc>")

/-- Output-file derivation inside the per-file loop (src/id2xml/run.py,
lines 205-220): an explicit -o name wins, else the -p directory joined with
the input stem plus suffix, else the input path with its suffix replaced by
the mode's suffix; with an implied name in conversion mode an existing file
is never overwritten.  An error result carries the `die` events. -/
def deriveOutf (c : Collab) (program : String) (o : Options) (fs : FS) (f : String) :
    Except (List Event) String :=
  let suffix := if o.strip_only then ".raw" else ".xml"
  if truthy o.output_file then Except.ok (o.output_file.getD "")
  else if truthy o.output_path then Except.ok (pathJoin (o.output_path.getD "") (stem f ++ suffix))
  else
    let outf := withSuffix f suffix
    if !o.strip_only && fs.existsFile outf then
      Except.error (dieEvents c program (impliedMsg outf program))
    else Except.ok outf

/-- One iteration of the file loop of `run` (src/id2xml/run.py, lines
201-239): derive the output target (possibly dying), open and read the
input (a missing file raises, which the `except` clause reports and
re-raises), then either strip page breaks and write the joined lines plus a
trailing newline, or call the conversion engine and write its XML; a `-o -`
destination is standard output.  The result is the event list, the updated
file system, and `some` final outcome when the loop must stop here. -/
def processFile (c : Collab) (program : String) (o : Options) (fs : FS) (f : String) :
    List Event × FS × Option Outcome :=
  match deriveOutf c program o fs f with
  | Except.error evs => (evs, fs, some (Outcome.exited 1))
  | Except.ok outf =>
    match fs.read? f with
    | none =>
      ([Event.errWrite (failureMsg (fileName f) (ioError f))], fs,
        some (Outcome.raised (ioError f)))
    | some txt =>
      let dest := if o.output_file == some "-" then "<stdout>" else outf
      if o.strip_only then
        let content := String.intercalate "\n" ((strip_pagebreaks c.tmpl txt).map Line.txt) ++ "\n"
        ([Event.fileRead f]
          ++ noteEvents c o (" Stripping " ++ quoted (fileName f))
          ++ [Event.outWrite dest content]
          ++ noteEvents c o (" Written to " ++ quoted dest),
          fs.write dest content, none)
      else
        match parse_to_xml c.tmpl (fileName f) txt o.schema o.doc_stream o.doc_ipr o.doc_consensus with
        | Except.ok xml =>
          ([Event.fileRead f]
            ++ noteEvents c o (" Converting " ++ quoted (fileName f))
            ++ [Event.convertCall (fileName f) o.schema, Event.outWrite dest xml]
            ++ noteEvents c o (" Written to " ++ quoted dest),
            fs.write dest xml, none)
        | Except.error e =>
          ([Event.fileRead f]
            ++ noteEvents c o (" Converting " ++ quoted (fileName f))
            ++ [Event.convertCall (fileName f) o.schema,
                Event.errWrite (failureMsg (fileName f) e)],
            fs, some (Outcome.raised e))

/-- The `for file in options.DRAFT` loop (src/id2xml/run.py, line 201): files
are processed in order; the first per-file halt (a `die` or a re-raised
exception) ends the run, otherwise the loop finishes normally. -/
def runLoop (c : Collab) (program : String) (o : Options) : FS → List String → List Event × FS × Outcome
  | fs, [] => ([], fs, Outcome.finished)
  | fs, f :: rest =>
    match processFile c program o fs f with
    | (evs, fs2, some oc) => (evs, fs2, oc)
    | (evs, fs2, none) =>
      let r := runLoop c program o fs2 rest
      (evs ++ r.1, r.2.1, r.2.2)

/-- The body of `run` after argument parsing (src/id2xml/run.py, lines
178-239): the version branch prints and exits 0; then the check of the
mutually exclusive -o and -p options, the stream-value check and the
trace-condition check each `die`
with exit status 1; then the file loop runs. -/
def run (c : Collab) (program version : String) (o : Options) (fs : FS) :
    List Event × FS × Outcome :=
  if o.version then
    ([Event.outWrite "<stdout>" (versionLine program version)], fs, Outcome.exited 0)
  else if truthy o.output_path && truthy o.output_file then
    (dieEvents c program mutualMsg, fs, Outcome.exited 1)
  else if truthy o.doc_stream && !(stream_names.contains (o.doc_stream.getD "")) then
    (dieEvents c program (streamMsg (o.doc_stream.getD "")), fs, Outcome.exited 1)
  else if (truthy o.trace_start_regex || truthyI o.trace_start_line)
      && !(o.trace_stop_regex != "" || truthyI o.trace_stop_line) then
    (dieEvents c program traceMsg, fs, Outcome.exited 1)
  else runLoop c program o fs o.DRAFT

/-- A token that argparse would treat as an option string rather than as a
value or a positional: it starts with `-` and is not the bare `-`. -/
def isOptionLike (t : String) : Bool :=
  match t.toList with
  | c :: _ :: _ => c == Char.ofNat 45
  | _ => false

/-- The argparse namespace before any argument is applied: argparse defaults
for every destination of `run`'s parser, with `schema` set to `"v2"` by
`set_defaults` (src/id2xml/run.py, line 171) and `trace_methods` pre-seeded
by the configuration defaults (line 85). -/
def defaultOptions : Options where
  DRAFT := []
  schema := "v2"
  debug := false
  doc_consensus := none
  doc_ipr := none
  doc_stream := none
  output_file := none
  output_path := none
  quiet := false
  strip_only := false
  trace_start_regex := none
  trace_stop_regex := ""
  trace_start_line := none
  trace_stop_line := none
  trace_methods := some []
  version := false
  verbose := false

/-- Classification of one command-line token against the option strings
registered in `run`'s argparse parser (src/id2xml/run.py, lines 143-170),
tried in registration order: schema flags, debug, help, quiet, strip-only,
version, verbose, then the value-taking options, then unrecognized
option-like tokens, and finally positionals. -/
inductive TokKind where
  | flagV2
  | flagV3
  | flagDebug
  | flagHelp
  | flagQuiet
  | flagStrip
  | flagVersion
  | flagVerbose
  | valConsensus
  | valIpr
  | valStream
  | valOut
  | valPath
  | valTraceStartRegex
  | valTraceStopRegex
  | valTraceMethods
  | valTraceStartLine
  | valTraceStopLine
  | badOption
  | positional
deriving DecidableEq, Repr

/-- Classify one token by the option strings of `run`'s argparse parser. -/
def tokAction (t : String) : TokKind :=
  if t == "-2" || t == "--v2" then TokKind.flagV2
  else if t == "-3" || t == "--v3" then TokKind.flagV3
  else if t == "-d" || t == "--debug" then TokKind.flagDebug
  else if t == "-h" || t == "--help" then TokKind.flagHelp
  else if t == "-q" || t == "--quiet" then TokKind.flagQuiet
  else if t == "-s" || t == "--strip-only" then TokKind.flagStrip
  else if t == "-V" || t == "--version" then TokKind.flagVersion
  else if t == "-v" || t == "--verbose" then TokKind.flagVerbose
  else if t == "--doc-consensus" then TokKind.valConsensus
  else if t == "--doc-ipr" then TokKind.valIpr
  else if t == "--doc-stream" then TokKind.valStream
  else if t == "-o" || t == "--out" then TokKind.valOut
  else if t == "-p" || t == "--path" then TokKind.valPath
  else if t == "--trace-start-regex" then TokKind.valTraceStartRegex
  else if t == "--trace-stop-regex" then TokKind.valTraceStopRegex
  else if t == "--trace-methods" then TokKind.valTraceMethods
  else if t == "--trace-start-line" then TokKind.valTraceStartLine
  else if t == "--trace-stop-line" then TokKind.valTraceStopLine
  else if isOptionLike t then TokKind.badOption
  else TokKind.positional

/-- Consume the value token following a value-taking option: argparse
refuses an option-like token (and a missing token) as a value. -/
def takeValue (ts : List String) (k : String → List String → Option Options) : Option Options :=
  match ts with
  | [] => none
  | v :: ts2 => if isOptionLike v then none else k v ts2

/-- Consume and convert the integer value following an int-typed option;
a token that is not an integer is an argparse error. -/
def takeIntValue (ts : List String) (k : Int → List String → Option Options) : Option Options :=
  match ts with
  | [] => none
  | v :: ts2 =>
    if isOptionLike v then none
    else match v.toInt? with
      | none => none
      | some iv => k iv ts2

/-- Exact-token model of `parser.parse_args` for the options registered in
`run` (src/id2xml/run.py, lines 143-170): flag options set their
destination, value options consume the following token (argparse refuses an
option-like token as a value), `-h` ends the process during parsing, an
unrecognized option or a missing/ill-typed value is a parse error (`none`),
and every other token joins the `DRAFT` positionals in order.  Abbreviated
long options and clustered short flags are outside the model.  The first
argument is recursion fuel; every step consumes at least one token, so the
token count is always enough fuel. -/
def parseTokens : Nat → Options → List String → Option Options
  | _, o, [] => some o
  | 0, _, _ :: _ => none
  | Nat.succ n, o, t :: ts =>
    match tokAction t with
    | TokKind.flagV2 => parseTokens n { o with schema := "v2" } ts
    | TokKind.flagV3 => parseTokens n { o with schema := "v3" } ts
    | TokKind.flagDebug => parseTokens n { o with debug := true } ts
    | TokKind.flagHelp => none
    | TokKind.flagQuiet => parseTokens n { o with quiet := true } ts
    | TokKind.flagStrip => parseTokens n { o with strip_only := true } ts
    | TokKind.flagVersion => parseTokens n { o with version := true } ts
    | TokKind.flagVerbose => parseTokens n { o with verbose := true } ts
    | TokKind.valConsensus => takeValue ts (fun v ts2 => parseTokens n { o with doc_consensus := some v } ts2)
    | TokKind.valIpr => takeValue ts (fun v ts2 => parseTokens n { o with doc_ipr := some v } ts2)
    | TokKind.valStream => takeValue ts (fun v ts2 => parseTokens n { o with doc_stream := some v } ts2)
    | TokKind.valOut => takeValue ts (fun v ts2 => parseTokens n { o with output_file := some v } ts2)
    | TokKind.valPath => takeValue ts (fun v ts2 => parseTokens n { o with output_path := some v } ts2)
    | TokKind.valTraceStartRegex => takeValue ts (fun v ts2 => parseTokens n { o with trace_start_regex := some v } ts2)
    | TokKind.valTraceStopRegex => takeValue ts (fun v ts2 => parseTokens n { o with trace_stop_regex := v } ts2)
    | TokKind.valTraceMethods => takeValue ts (fun v ts2 => parseTokens n { o with trace_methods := some ((splitChar (Char.ofNat 44) v.toList).map (fun l => String.mk l)) } ts2)
    | TokKind.valTraceStartLine => takeIntValue ts (fun iv ts2 => parseTokens n { o with trace_start_line := some iv } ts2)
    | TokKind.valTraceStopLine => takeIntValue ts (fun iv ts2 => parseTokens n { o with trace_stop_line := some iv } ts2)
    | TokKind.badOption => none
    | TokKind.positional => parseTokens n { o with DRAFT := o.DRAFT ++ [t] } ts

/-- Parse a full argument vector starting from the default namespace. -/
def parseArgs (argv : List String) : Option Options := parseTokens argv.length defaultOptions argv

/-- The whole program: argparse over the argument vector (an argparse error
prints usage and exits with status 2 before `run`'s own logic is reached),
then the body of `run`. -/
def main (c : Collab) (program version : String) (argv : List String) (fs : FS) :
    List Event × FS × Outcome :=
  match parseArgs argv with
  | none => ([Event.errWrite (program ++ ": error: unrecognized or invalid arguments")], fs, Outcome.exited 2)
  | some o => run c program version o fs

/-- Invariant relating a parsed suffix of the argument vector to the
namespace before and after: the schema is unchanged unless a schema flag
occurs, a version flag already set is never cleared, and a version flag in
the suffix sets the version field. -/
def ParseInv (ts : List String) (o o' : Options) : Prop :=
  (("-2" ∉ ts ∧ "--v2" ∉ ts ∧ "-3" ∉ ts ∧ "--v3" ∉ ts) → o'.schema = o.schema)
  ∧ (o.version = true → o'.version = true)
  ∧ (("-V" ∈ ts ∨ "--version" ∈ ts) → o'.version = true)

set_option maxHeartbeats 2000000 in
lemma tokAction_inv (t : String) :
    (tokAction t = TokKind.flagV2 → t = "-2" ∨ t = "--v2")
    ∧ (tokAction t = TokKind.flagV3 → t = "-3" ∨ t = "--v3") := by
  unfold tokAction
  by_cases c1 : (t == "-2" || t == "--v2") = true
  · rw [if_pos c1]
    constructor
    · intro _
      simpa using c1
    · intro h
      exact TokKind.noConfusion h
  · rw [if_neg c1]
    by_cases c2 : (t == "-3" || t == "--v3") = true
    · rw [if_pos c2]
      constructor
      · intro h
        exact TokKind.noConfusion h
      · intro _
        simpa using c2
    · rw [if_neg c2]
      by_cases c3 : (t == "-d" || t == "--debug") = true
      · rw [if_pos c3]
        constructor
        · intro h
          exact TokKind.noConfusion h
        · intro h
          exact TokKind.noConfusion h
      · rw [if_neg c3]
        by_cases c4 : (t == "-h" || t == "--help") = true
        · rw [if_pos c4]
          constructor
          · intro h
            exact TokKind.noConfusion h
          · intro h
            exact TokKind.noConfusion h
        · rw [if_neg c4]
          by_cases c5 : (t == "-q" || t == "--quiet") = true
          · rw [if_pos c5]
            constructor
            · intro h
              exact TokKind.noConfusion h
            · intro h
              exact TokKind.noConfusion h
          · rw [if_neg c5]
            by_cases c6 : (t == "-s" || t == "--strip-only") = true
            · rw [if_pos c6]
              constructor
              · intro h
                exact TokKind.noConfusion h
              · intro h
                exact TokKind.noConfusion h
            · rw [if_neg c6]
              by_cases c7 : (t == "-V" || t == "--version") = true
              · rw [if_pos c7]
                constructor
                · intro h
                  exact TokKind.noConfusion h
                · intro h
                  exact TokKind.noConfusion h
              · rw [if_neg c7]
                by_cases c8 : (t == "-v" || t == "--verbose") = true
                · rw [if_pos c8]
                  constructor
                  · intro h
                    exact TokKind.noConfusion h
                  · intro h
                    exact TokKind.noConfusion h
                · rw [if_neg c8]
                  by_cases c9 : (t == "--doc-consensus") = true
                  · rw [if_pos c9]
                    constructor
                    · intro h
                      exact TokKind.noConfusion h
                    · intro h
                      exact TokKind.noConfusion h
                  · rw [if_neg c9]
                    by_cases c10 : (t == "--doc-ipr") = true
                    · rw [if_pos c10]
                      constructor
                      · intro h
                        exact TokKind.noConfusion h
                      · intro h
                        exact TokKind.noConfusion h
                    · rw [if_neg c10]
                      by_cases c11 : (t == "--doc-stream") = true
                      · rw [if_pos c11]
                        constructor
                        · intro h
                          exact TokKind.noConfusion h
                        · intro h
                          exact TokKind.noConfusion h
                      · rw [if_neg c11]
                        by_cases c12 : (t == "-o" || t == "--out") = true
                        · rw [if_pos c12]
                          constructor
                          · intro h
                            exact TokKind.noConfusion h
                          · intro h
                            exact TokKind.noConfusion h
                        · rw [if_neg c12]
                          by_cases c13 : (t == "-p" || t == "--path") = true
                          · rw [if_pos c13]
                            constructor
                            · intro h
                              exact TokKind.noConfusion h
                            · intro h
                              exact TokKind.noConfusion h
                          · rw [if_neg c13]
                            by_cases c14 : (t == "--trace-start-regex") = true
                            · rw [if_pos c14]
                              constructor
                              · intro h
                                exact TokKind.noConfusion h
                              · intro h
                                exact TokKind.noConfusion h
                            · rw [if_neg c14]
                              by_cases c15 : (t == "--trace-stop-regex") = true
                              · rw [if_pos c15]
                                constructor
                                · intro h
                                  exact TokKind.noConfusion h
                                · intro h
                                  exact TokKind.noConfusion h
                              · rw [if_neg c15]
                                by_cases c16 : (t == "--trace-methods") = true
                                · rw [if_pos c16]
                                  constructor
                                  · intro h
                                    exact TokKind.noConfusion h
                                  · intro h
                                    exact TokKind.noConfusion h
                                · rw [if_neg c16]
                                  by_cases c17 : (t == "--trace-start-line") = true
                                  · rw [if_pos c17]
                                    constructor
                                    · intro h
                                      exact TokKind.noConfusion h
                                    · intro h
                                      exact TokKind.noConfusion h
                                  · rw [if_neg c17]
                                    by_cases c18 : (t == "--trace-stop-line") = true
                                    · rw [if_pos c18]
                                      constructor
                                      · intro h
                                        exact TokKind.noConfusion h
                                      · intro h
                                        exact TokKind.noConfusion h
                                    · rw [if_neg c18]
                                      by_cases c19 : isOptionLike t = true
                                      · rw [if_pos c19]
                                        constructor
                                        · intro h
                                          exact TokKind.noConfusion h
                                        · intro h
                                          exact TokKind.noConfusion h
                                      · rw [if_neg c19]
                                        exact ⟨fun h => TokKind.noConfusion h, fun h => TokKind.noConfusion h⟩

lemma tokAction_eq_flagV2 (t : String) (h : tokAction t = TokKind.flagV2) :
    t = "-2" ∨ t = "--v2" := (tokAction_inv t).1 h

lemma tokAction_eq_flagV3 (t : String) (h : tokAction t = TokKind.flagV3) :
    t = "-3" ∨ t = "--v3" := (tokAction_inv t).2 h

lemma tokAction_of_version_tok (t : String) (h : t = "-V" ∨ t = "--version") :
    tokAction t = TokKind.flagVersion := by
  rcases h with rfl | rfl <;> decide

lemma parseInv_step (n : Nat) (t : String) (ts : List String) (o o' o₁ : Options)
    (ih : ∀ (ts : List String) (o o' : Options), parseTokens n o ts = some o' → ParseInv ts o o')
    (h : parseTokens n o₁ ts = some o')
    (hsch : o₁.schema = o.schema)
    (hver : o.version = true → o₁.version = true)
    (hnotV : tokAction t ≠ TokKind.flagVersion) :
    ParseInv (t :: ts) o o' := by
  obtain ⟨ihs, ihv, ihm⟩ := ih ts o₁ o' h
  refine ⟨?_, fun hv => ihv (hver hv), ?_⟩
  · intro hx
    obtain ⟨a, b, c, d⟩ := hx
    rw [ihs ⟨fun hy => a (List.mem_cons_of_mem _ hy), fun hy => b (List.mem_cons_of_mem _ hy),
      fun hy => c (List.mem_cons_of_mem _ hy), fun hy => d (List.mem_cons_of_mem _ hy)⟩, hsch]
  · intro hm
    rcases hm with hm | hm
    · rcases List.mem_cons.mp hm with heq | hm2
      · exact absurd (tokAction_of_version_tok t (Or.inl heq.symm)) hnotV
      · exact ihm (Or.inl hm2)
    · rcases List.mem_cons.mp hm with heq | hm2
      · exact absurd (tokAction_of_version_tok t (Or.inr heq.symm)) hnotV
      · exact ihm (Or.inr hm2)

lemma parseInv_stepVal (n : Nat) (t v : String) (ts2 : List String) (o o' o₁ : Options)
    (ih : ∀ (ts : List String) (o o' : Options), parseTokens n o ts = some o' → ParseInv ts o o')
    (h : parseTokens n o₁ ts2 = some o')
    (hsch : o₁.schema = o.schema)
    (hver : o.version = true → o₁.version = true)
    (hnotV : tokAction t ≠ TokKind.flagVersion)
    (hv : isOptionLike v = false) :
    ParseInv (t :: v :: ts2) o o' := by
  obtain ⟨ihs, ihv, ihm⟩ := ih ts2 o₁ o' h
  refine ⟨?_, fun hvv => ihv (hver hvv), ?_⟩
  · intro hx
    obtain ⟨a, b, c, d⟩ := hx
    rw [ihs ⟨fun hy => a (List.mem_cons_of_mem _ (List.mem_cons_of_mem _ hy)),
      fun hy => b (List.mem_cons_of_mem _ (List.mem_cons_of_mem _ hy)),
      fun hy => c (List.mem_cons_of_mem _ (List.mem_cons_of_mem _ hy)),
      fun hy => d (List.mem_cons_of_mem _ (List.mem_cons_of_mem _ hy))⟩, hsch]
  · intro hm
    rcases hm with hm | hm
    · rcases List.mem_cons.mp hm with heq | hm2
      · exact absurd (tokAction_of_version_tok t (Or.inl heq.symm)) hnotV
      · rcases List.mem_cons.mp hm2 with heq2 | hm3
        · rw [← heq2] at hv
          exact absurd hv (by decide)
        · exact ihm (Or.inl hm3)
    · rcases List.mem_cons.mp hm with heq | hm2
      · exact absurd (tokAction_of_version_tok t (Or.inr heq.symm)) hnotV
      · rcases List.mem_cons.mp hm2 with heq2 | hm3
        · rw [← heq2] at hv
          exact absurd hv (by decide)
        · exact ihm (Or.inr hm3)

lemma parseTokens_fields : ∀ (n : Nat) (ts : List String) (o o' : Options),
    parseTokens n o ts = some o' → ParseInv ts o o' := by
  intro n
  induction n with
  | zero =>
    intro ts o o' h
    cases ts with
    | nil =>
      rw [parseTokens] at h
      cases h
      exact ⟨fun _ => rfl, fun hv => hv, fun hm => by simp at hm⟩
    | cons t ts =>
      rw [parseTokens] at h
      exact Option.noConfusion h
  | succ n ih =>
    intro ts o o' h
    cases ts with
    | nil =>
      rw [parseTokens] at h
      cases h
      exact ⟨fun _ => rfl, fun hv => hv, fun hm => by simp at hm⟩
    | cons t ts =>
      rw [parseTokens] at h
      cases htok : tokAction t
      all_goals simp only [htok] at h
      case flagV2 =>
        obtain ⟨ihs, ihv, ihm⟩ := ih ts _ o' h
        refine ⟨?_, fun hv => ihv hv, ?_⟩
        · intro hx
          obtain ⟨a, b, _, _⟩ := hx
          rcases tokAction_eq_flagV2 t htok with rfl | rfl
          · exact absurd (List.mem_cons_self _ _) a
          · exact absurd (List.mem_cons_self _ _) b
        · intro hm
          rcases hm with hm | hm
          · rcases List.mem_cons.mp hm with heq | hm2
            · rw [← heq] at htok
              exact absurd htok (by decide)
            · exact ihm (Or.inl hm2)
          · rcases List.mem_cons.mp hm with heq | hm2
            · rw [← heq] at htok
              exact absurd htok (by decide)
            · exact ihm (Or.inr hm2)
      case flagV3 =>
        obtain ⟨ihs, ihv, ihm⟩ := ih ts _ o' h
        refine ⟨?_, fun hv => ihv hv, ?_⟩
        · intro hx
          obtain ⟨_, _, c, d⟩ := hx
          rcases tokAction_eq_flagV3 t htok with rfl | rfl
          · exact absurd (List.mem_cons_self _ _) c
          · exact absurd (List.mem_cons_self _ _) d
        · intro hm
          rcases hm with hm | hm
          · rcases List.mem_cons.mp hm with heq | hm2
            · rw [← heq] at htok
              exact absurd htok (by decide)
            · exact ihm (Or.inl hm2)
          · rcases List.mem_cons.mp hm with heq | hm2
            · rw [← heq] at htok
              exact absurd htok (by decide)
            · exact ihm (Or.inr hm2)
      case flagDebug =>
        exact parseInv_step n t ts o o' _ ih h rfl (fun hv => hv) (by rw [htok]; decide)
      case flagHelp => exact Option.noConfusion h
      case flagQuiet =>
        exact parseInv_step n t ts o o' _ ih h rfl (fun hv => hv) (by rw [htok]; decide)
      case flagStrip =>
        exact parseInv_step n t ts o o' _ ih h rfl (fun hv => hv) (by rw [htok]; decide)
      case flagVersion =>
        obtain ⟨ihs, ihv, ihm⟩ := ih ts _ o' h
        refine ⟨?_, fun _ => ihv rfl, fun _ => ihv rfl⟩
        intro hx
        obtain ⟨a, b, c, d⟩ := hx
        exact ihs ⟨fun hy => a (List.mem_cons_of_mem _ hy), fun hy => b (List.mem_cons_of_mem _ hy),
          fun hy => c (List.mem_cons_of_mem _ hy), fun hy => d (List.mem_cons_of_mem _ hy)⟩
      case flagVerbose =>
        exact parseInv_step n t ts o o' _ ih h rfl (fun hv => hv) (by rw [htok]; decide)
      case valConsensus =>
        cases ts with
        | nil => exact absurd h (by simp [takeValue])
        | cons v ts2 =>
          rw [takeValue] at h
          by_cases hv : isOptionLike v = true
          · rw [if_pos hv] at h
            exact Option.noConfusion h
          · rw [if_neg hv] at h
            have hvf : isOptionLike v = false := by simpa using hv
            exact parseInv_stepVal n t v ts2 o o' _ ih h rfl (fun x => x) (by rw [htok]; decide) hvf
      case valIpr =>
        cases ts with
        | nil => exact absurd h (by simp [takeValue])
        | cons v ts2 =>
          rw [takeValue] at h
          by_cases hv : isOptionLike v = true
          · rw [if_pos hv] at h
            exact Option.noConfusion h
          · rw [if_neg hv] at h
            have hvf : isOptionLike v = false := by simpa using hv
            exact parseInv_stepVal n t v ts2 o o' _ ih h rfl (fun x => x) (by rw [htok]; decide) hvf
      case valStream =>
        cases ts with
        | nil => exact absurd h (by simp [takeValue])
        | cons v ts2 =>
          rw [takeValue] at h
          by_cases hv : isOptionLike v = true
          · rw [if_pos hv] at h
            exact Option.noConfusion h
          · rw [if_neg hv] at h
            have hvf : isOptionLike v = false := by simpa using hv
            exact parseInv_stepVal n t v ts2 o o' _ ih h rfl (fun x => x) (by rw [htok]; decide) hvf
      case valOut =>
        cases ts with
        | nil => exact absurd h (by simp [takeValue])
        | cons v ts2 =>
          rw [takeValue] at h
          by_cases hv : isOptionLike v = true
          · rw [if_pos hv] at h
            exact Option.noConfusion h
          · rw [if_neg hv] at h
            have hvf : isOptionLike v = false := by simpa using hv
            exact parseInv_stepVal n t v ts2 o o' _ ih h rfl (fun x => x) (by rw [htok]; decide) hvf
      case valPath =>
        cases ts with
        | nil => exact absurd h (by simp [takeValue])
        | cons v ts2 =>
          rw [takeValue] at h
          by_cases hv : isOptionLike v = true
          · rw [if_pos hv] at h
            exact Option.noConfusion h
          · rw [if_neg hv] at h
            have hvf : isOptionLike v = false := by simpa using hv
            exact parseInv_stepVal n t v ts2 o o' _ ih h rfl (fun x => x) (by rw [htok]; decide) hvf
      case valTraceStartRegex =>
        cases ts with
        | nil => exact absurd h (by simp [takeValue])
        | cons v ts2 =>
          rw [takeValue] at h
          by_cases hv : isOptionLike v = true
          · rw [if_pos hv] at h
            exact Option.noConfusion h
          · rw [if_neg hv] at h
            have hvf : isOptionLike v = false := by simpa using hv
            exact parseInv_stepVal n t v ts2 o o' _ ih h rfl (fun x => x) (by rw [htok]; decide) hvf
      case valTraceStopRegex =>
        cases ts with
        | nil => exact absurd h (by simp [takeValue])
        | cons v ts2 =>
          rw [takeValue] at h
          by_cases hv : isOptionLike v = true
          · rw [if_pos hv] at h
            exact Option.noConfusion h
          · rw [if_neg hv] at h
            have hvf : isOptionLike v = false := by simpa using hv
            exact parseInv_stepVal n t v ts2 o o' _ ih h rfl (fun x => x) (by rw [htok]; decide) hvf
      case valTraceMethods =>
        cases ts with
        | nil => exact absurd h (by simp [takeValue])
        | cons v ts2 =>
          rw [takeValue] at h
          by_cases hv : isOptionLike v = true
          · rw [if_pos hv] at h
            exact Option.noConfusion h
          · rw [if_neg hv] at h
            have hvf : isOptionLike v = false := by simpa using hv
            exact parseInv_stepVal n t v ts2 o o' _ ih h rfl (fun x => x) (by rw [htok]; decide) hvf
      case valTraceStartLine =>
        cases ts with
        | nil => exact absurd h (by simp [takeIntValue])
        | cons v ts2 =>
          rw [takeIntValue] at h
          by_cases hv : isOptionLike v = true
          · rw [if_pos hv] at h
            exact Option.noConfusion h
          · rw [if_neg hv] at h
            cases hi : v.toInt? with
            | none =>
              rw [hi] at h
              exact Option.noConfusion h
            | some iv =>
              rw [hi] at h
              have hvf : isOptionLike v = false := by simpa using hv
              exact parseInv_stepVal n t v ts2 o o' _ ih h rfl (fun x => x) (by rw [htok]; decide) hvf
      case valTraceStopLine =>
        cases ts with
        | nil => exact absurd h (by simp [takeIntValue])
        | cons v ts2 =>
          rw [takeIntValue] at h
          by_cases hv : isOptionLike v = true
          · rw [if_pos hv] at h
            exact Option.noConfusion h
          · rw [if_neg hv] at h
            cases hi : v.toInt? with
            | none =>
              rw [hi] at h
              exact Option.noConfusion h
            | some iv =>
              rw [hi] at h
              have hvf : isOptionLike v = false := by simpa using hv
              exact parseInv_stepVal n t v ts2 o o' _ ih h rfl (fun x => x) (by rw [htok]; decide) hvf
      case badOption => exact Option.noConfusion h
      case positional =>
        exact parseInv_step n t ts o o' _ ih h rfl (fun hv => hv) (by rw [htok]; decide)

lemma parseArgs_schema (argv : List String) (o : Options) (h : parseArgs argv = some o)
    (h2 : "-2" ∉ argv) (h3 : "--v2" ∉ argv) (h4 : "-3" ∉ argv) (h5 : "--v3" ∉ argv) :
    o.schema = "v2" :=
  (parseTokens_fields argv.length argv defaultOptions o h).1 ⟨h2, h3, h4, h5⟩

lemma parseArgs_version (argv : List String) (o : Options) (h : parseArgs argv = some o)
    (hm : "-V" ∈ argv ∨ "--version" ∈ argv) : o.version = true :=
  (parseTokens_fields argv.length argv defaultOptions o h).2.2 hm

lemma noteEvents_filter (c : Collab) (o : Options) (s : String) :
    (noteEvents c o s).filter isOutWrite = [] := by
  unfold noteEvents
  by_cases h : o.quiet <;> simp [h, isOutWrite]

lemma noteEvents_errOnly (c : Collab) (o : Options) (s : String) :
    ∀ e ∈ noteEvents c o s, ∃ m, e = Event.errWrite m := by
  unfold noteEvents
  by_cases h : o.quiet <;> simp [h]

lemma noteEvents_quiet_set (c : Collab) (o : Options) (b : Bool) (s : String) :
    noteEvents c { o with quiet := b } s = if b then [] else [Event.errWrite (c.wrap (s ++ "\n"))] := by
  unfold noteEvents
  rfl

lemma processFile_quiet (c : Collab) (p : String) (o : Options) (fs : FS) (f : String) (b : Bool) :
    ((processFile c p { o with quiet := b } fs f).1.filter isOutWrite
      = (processFile c p o fs f).1.filter isOutWrite)
    ∧ (processFile c p { o with quiet := b } fs f).2 = (processFile c p o fs f).2 := by
  have hD0 : deriveOutf c p { o with quiet := b } fs f = deriveOutf c p o fs f := rfl
  unfold processFile
  rw [hD0]
  cases hD : deriveOutf c p o fs f with
  | error evs => simp
  | ok outf =>
    cases hR : fs.read? f with
    | none => simp
    | some txt =>
      by_cases hs : o.strip_only
      · simp [hs, List.filter_append, noteEvents_filter, isOutWrite]
      · simp only [hs]
        cases hx : parse_to_xml c.tmpl (fileName f) txt o.schema o.doc_stream o.doc_ipr o.doc_consensus with
        | ok xml => simp [hs, hx, List.filter_append, noteEvents_filter, isOutWrite]
        | error e => simp [hs, hx, List.filter_append, noteEvents_filter, isOutWrite]

lemma runLoop_quiet (c : Collab) (p : String) (o : Options) (b : Bool) :
    ∀ (files : List String) (fs : FS),
      ((runLoop c p { o with quiet := b } fs files).1.filter isOutWrite
        = (runLoop c p o fs files).1.filter isOutWrite)
      ∧ (runLoop c p { o with quiet := b } fs files).2 = (runLoop c p o fs files).2 := by
  intro files
  induction files with
  | nil => intro fs; exact ⟨rfl, rfl⟩
  | cons f rest ih =>
    intro fs
    obtain ⟨h1, h2⟩ := processFile_quiet c p o fs f b
    cases hP : processFile c p o fs f with
    | mk evs r1 =>
      cases r1 with
      | mk fs2 halt =>
        have hPq : processFile c p { o with quiet := b } fs f
            = ((processFile c p { o with quiet := b } fs f).1, fs2, halt) := by
          rw [← Prod.mk.eta (p := processFile c p { o with quiet := b } fs f)]
          rw [h2, hP]
        rw [hP] at h1
        cases halt with
        | some oc =>
          unfold runLoop
          rw [hPq, hP]
          exact ⟨h1, rfl⟩
        | none =>
          obtain ⟨ih1, ih2⟩ := ih fs2
          unfold runLoop
          rw [hPq, hP]
          constructor
          · simp only [List.filter_append, h1, ih1]
          · simp only [ih2]

lemma run_quiet (c : Collab) (p v : String) (o : Options) (fs : FS) (b : Bool) :
    ((run c p v { o with quiet := b } fs).1.filter isOutWrite
      = (run c p v o fs).1.filter isOutWrite)
    ∧ (run c p v { o with quiet := b } fs).2 = (run c p v o fs).2 := by
  unfold run
  have h1 : ({ o with quiet := b } : Options).version = o.version := rfl
  have h2 : ({ o with quiet := b } : Options).output_path = o.output_path := rfl
  have h3 : ({ o with quiet := b } : Options).output_file = o.output_file := rfl
  have h4 : ({ o with quiet := b } : Options).doc_stream = o.doc_stream := rfl
  have h5 : ({ o with quiet := b } : Options).trace_start_regex = o.trace_start_regex := rfl
  have h6 : ({ o with quiet := b } : Options).trace_start_line = o.trace_start_line := rfl
  have h7 : ({ o with quiet := b } : Options).trace_stop_regex = o.trace_stop_regex := rfl
  have h8 : ({ o with quiet := b } : Options).trace_stop_line = o.trace_stop_line := rfl
  have h9 : ({ o with quiet := b } : Options).DRAFT = o.DRAFT := rfl
  rw [h1, h2, h3, h4, h5, h6, h7, h8, h9]
  split
  · exact ⟨rfl, rfl⟩
  · split
    · exact ⟨rfl, rfl⟩
    · split
      · exact ⟨rfl, rfl⟩
      · split
        · exact ⟨rfl, rfl⟩
        · exact runLoop_quiet c p o b o.DRAFT fs

lemma noteEvents_no_convert (c : Collab) (o : Options) (s nm sc : String) :
    Event.convertCall nm sc ∉ noteEvents c o s := by
  unfold noteEvents
  by_cases h : o.quiet <;> simp [h]

lemma deriveOutf_error_shape (c : Collab) (p : String) (o : Options) (fs : FS) (f : String)
    (evs : List Event) (h : deriveOutf c p o fs f = Except.error evs) :
    ∃ m, evs = [Event.errWrite m] := by
  unfold deriveOutf at h
  by_cases h1 : truthy o.output_file = true
  · simp [h1] at h
  · by_cases h2 : truthy o.output_path = true
    · simp [h1, h2] at h
    · by_cases h3 : (!o.strip_only
          && fs.existsFile (withSuffix f (if o.strip_only then ".raw" else ".xml"))) = true
      · simp only [h1, h2, h3, if_false, if_true, Bool.false_eq_true, Except.error.injEq] at h
        exact ⟨_, h.symm⟩
      · simp [h1, h2, h3] at h

lemma processFile_convert_schema (c : Collab) (p : String) (o : Options) (fs : FS) (f : String) :
    ∀ nm sc, Event.convertCall nm sc ∈ (processFile c p o fs f).1 → sc = o.schema := by
  intro nm sc hmem
  unfold processFile at hmem
  cases hD : deriveOutf c p o fs f with
  | error evs =>
    rw [hD] at hmem
    obtain ⟨m, rfl⟩ := deriveOutf_error_shape c p o fs f evs hD
    simp at hmem
  | ok outf =>
    rw [hD] at hmem
    cases hR : fs.read? f with
    | none =>
      rw [hR] at hmem
      simp at hmem
    | some txt =>
      rw [hR] at hmem
      by_cases hq : o.quiet = true <;> by_cases hs : o.strip_only = true
      · simp [hs, noteEvents, hq] at hmem
      · cases hx : parse_to_xml c.tmpl (fileName f) txt o.schema o.doc_stream o.doc_ipr o.doc_consensus with
        | ok xml =>
          simp [hs, hq, hx, noteEvents] at hmem
          exact hmem.2
        | error e =>
          simp [hs, hq, hx, noteEvents] at hmem
          exact hmem.2
      · simp [hs, noteEvents, hq] at hmem
      · cases hx : parse_to_xml c.tmpl (fileName f) txt o.schema o.doc_stream o.doc_ipr o.doc_consensus with
        | ok xml =>
          simp [hs, hq, hx, noteEvents] at hmem
          exact hmem.2
        | error e =>
          simp [hs, hq, hx, noteEvents] at hmem
          exact hmem.2

lemma runLoop_convert_schema (c : Collab) (p : String) (o : Options) :
    ∀ (files : List String) (fs : FS) (nm sc : String),
      Event.convertCall nm sc ∈ (runLoop c p o fs files).1 → sc = o.schema := by
  intro files
  induction files with
  | nil => intro fs nm sc hmem; simp [runLoop] at hmem
  | cons f rest ih =>
    intro fs nm sc hmem
    unfold runLoop at hmem
    cases hP : processFile c p o fs f with
    | mk evs r1 =>
      cases r1 with
      | mk fs2 halt =>
        rw [hP] at hmem
        cases halt with
        | some oc =>
          simp only at hmem
          have := processFile_convert_schema c p o fs f nm sc
          rw [hP] at this
          exact this hmem
        | none =>
          simp only [List.mem_append] at hmem
          cases hmem with
          | inl h =>
            have := processFile_convert_schema c p o fs f nm sc
            rw [hP] at this
            exact this h
          | inr h => exact ih fs2 nm sc h

lemma run_convert_schema (c : Collab) (p v : String) (o : Options) (fs : FS) :
    ∀ nm sc, Event.convertCall nm sc ∈ (run c p v o fs).1 → sc = o.schema := by
  intro nm sc hmem
  unfold run at hmem
  split at hmem
  · simp at hmem
  · split at hmem
    · simp [dieEvents] at hmem
    · split at hmem
      · simp [dieEvents] at hmem
      · split at hmem
        · simp [dieEvents] at hmem
        · exact runLoop_convert_schema c p o o.DRAFT fs nm sc hmem

/-- Test for an event that opens an input file or writes output. -/
def isReadOrWrite : Event → Bool
  | Event.outWrite _ _ => true
  | Event.fileRead _ => true
  | _ => false

/-- Concrete collaborator used for witnesses: identity wrapping and no
running header/footer template. -/
def collab0 : Collab := Collab.mk (fun s => s) (fun _ => false)

/-- An empty file system. -/
def fs0 : FS := FS.mk []

/-- Invocation with -V and an invalid stream override. -/
def opts1 : Options := { defaultOptions with version := true, doc_stream := some "bogus" }

/-- Invocation with an invalid stream override and no -V. -/
def opts1w : Options := { defaultOptions with doc_stream := some "bogus" }

/-- Invocation naming two drafts with an explicit output file. -/
def opts2 : Options := { defaultOptions with output_file := some "out", DRAFT := ["a", "b"] }

/-- A file system in which only `b` exists. -/
def fsB : FS := FS.mk [("b", "text")]

/-- Invocation with -V and both -o and -p. -/
def opts3 : Options := { defaultOptions with version := true, output_file := some "x", output_path := some "y" }

/-- Invocation with both -o and -p and no -V. -/
def opts3w : Options := { defaultOptions with output_file := some "x", output_path := some "y" }

/-- Invocation in strip-only mode. -/
def opts4 : Options := { defaultOptions with strip_only := true }

/-- A file system holding one two-line draft. -/
def fsA : FS := FS.mk [("a.txt", "l1\nl2")]

/-- Invocation naming one draft with no other options. -/
def opts6 : Options := { defaultOptions with DRAFT := ["draft.txt"] }

/-- A file system holding one one-line draft. -/
def fsD : FS := FS.mk [("draft.txt", "hello")]

/-- A file system in which the implied output file of `a.txt` already exists. -/
def fsX : FS := FS.mk [("a.txt", "text"), ("a.xml", "old")]

/-- C1, counterexample to the claim as stated: the invocation
`-V --doc-stream bogus` supplies a stream value outside the enumeration,
yet the program prints the version and exits with status zero, because the
version branch precedes stream validation. -/
theorem c1_counterexample :
    parseArgs ["-V", "--doc-stream", "bogus"] = some opts1
    ∧ opts1.doc_stream = some "bogus"
    ∧ stream_names.contains "bogus" = false
    ∧ (run collab0 "id2xml" "1.0" opts1 fs0).2.2 = Outcome.exited 0 := by
  refine ⟨by decide, by decide, by decide, ?_⟩
  decide

/-- C1 (amended): for every parsed invocation without the -V (or --version) flag
in which --doc-stream is supplied with a nonempty value outside the
enumeration, `run` reports a fatal error — its events are exactly the `die`
stderr write for the invalid stream (or, when -o and -p also clash, the
mutual-exclusion `die` write that precedes it) — and exits with status 1,
leaving the file system unchanged, with no input-file open and no output
write. -/
theorem c1_stream_validation (c : Collab) (p ver : String) (o : Options) (fs : FS)
    (v : String) (hv : o.version = false) (hs : o.doc_stream = some v)
    (hne : v ≠ "") (hni : stream_names.contains v = false) :
    ((run c p ver o fs).1 = dieEvents c p mutualMsg
      ∨ (run c p ver o fs).1 = dieEvents c p (streamMsg v))
    ∧ (run c p ver o fs).2.2 = Outcome.exited 1
    ∧ (run c p ver o fs).2.1 = fs
    ∧ (run c p ver o fs).1.filter isReadOrWrite = [] := by
  have hversion : ¬(o.version = true) := by rw [hv]; exact Bool.false_ne_true
  have hstream : (truthy o.doc_stream && !(stream_names.contains (o.doc_stream.getD ""))) = true := by
    rw [hs]
    simp [truthy, bne_iff_ne, hne]
    simpa using hni
  unfold run
  rw [if_neg hversion]
  by_cases hmx : (truthy o.output_path && truthy o.output_file) = true
  · rw [if_pos hmx]
    exact ⟨Or.inl rfl, rfl, rfl, rfl⟩
  · rw [if_neg hmx, if_pos hstream, hs]
    exact ⟨Or.inr rfl, rfl, rfl, rfl⟩

/-- C1, witness: with `--doc-stream bogus` and no -V, the run writes exactly
the invalid-stream `die` message to stderr and exits 1 without touching any
file. -/
theorem c1_witness :
    ((run collab0 "id2xml" "1.0" opts1w fs0).1 = dieEvents collab0 "id2xml" mutualMsg
      ∨ (run collab0 "id2xml" "1.0" opts1w fs0).1 = dieEvents collab0 "id2xml" (streamMsg "bogus"))
    ∧ (run collab0 "id2xml" "1.0" opts1w fs0).2.2 = Outcome.exited 1
    ∧ (run collab0 "id2xml" "1.0" opts1w fs0).2.1 = fs0
    ∧ (run collab0 "id2xml" "1.0" opts1w fs0).1.filter isReadOrWrite = [] :=
  c1_stream_validation collab0 "id2xml" "1.0" opts1w fs0 "bogus" rfl rfl (by decide) (by decide)

/-- C2, counterexample to the claim as stated: with drafts `a` and `b` and
`a` unreadable, the failure message for `a` is written but the exception is
re-raised, so `b` — although listed — is never opened. -/
theorem c2_counterexample :
    "b" ∈ opts2.DRAFT
    ∧ (run collab0 "id2xml" "1.0" opts2 fsB).2.2 = Outcome.raised (ioError "a")
    ∧ Event.fileRead "b" ∉ (run collab0 "id2xml" "1.0" opts2 fsB).1 := by
  refine ⟨by decide, ?_, ?_⟩ <;> decide

/-- C2 (amended): when processing a file raises an exception (here: the
input cannot be opened), a message naming the file and the cause is written
to stderr, and the exception is re-raised, ending the run so that the
remaining files are not processed. -/
theorem c2_failure_reported_then_reraised (c : Collab) (p : String) (o : Options) (fs : FS)
    (f outf : String) (rest : List String)
    (hD : deriveOutf c p o fs f = Except.ok outf) (hr : fs.read? f = none) :
    runLoop c p o fs (f :: rest)
      = ([Event.errWrite (failureMsg (fileName f) (ioError f))], fs, Outcome.raised (ioError f)) := by
  have hPF : processFile c p o fs f
      = ([Event.errWrite (failureMsg (fileName f) (ioError f))], fs,
          some (Outcome.raised (ioError f))) := by
    unfold processFile
    rw [hD, hr]
  unfold runLoop
  rw [hPF]

/-- C2, witness: the concrete two-draft run aborts on the first draft with
the failure message and processes nothing further. -/
theorem c2_witness :
    runLoop collab0 "id2xml" opts2 fsB ["a", "b"]
      = ([Event.errWrite (failureMsg (fileName "a") (ioError "a"))], fsB,
          Outcome.raised (ioError "a")) :=
  c2_failure_reported_then_reraised collab0 "id2xml" opts2 fsB "a" "out" ["b"]
    (by decide) (by decide)

/-- C3, counterexample to the claim as stated: the invocation
`-V -o x -p y` supplies both output options, yet the program prints the
version and exits with status zero instead of reporting a fatal error. -/
theorem c3_counterexample :
    parseArgs ["-V", "-o", "x", "-p", "y"] = some opts3
    ∧ opts3.output_file = some "x"
    ∧ opts3.output_path = some "y"
    ∧ (run collab0 "id2xml" "1.0" opts3 fs0).2.2 = Outcome.exited 0 := by
  refine ⟨by decide, by decide, by decide, ?_⟩
  decide

/-- C3 (amended): for every parsed invocation without the -V (or --version) flag
in which both -o and -p are supplied with nonempty values, `run` emits
exactly the mutual-exclusion `die` message and exits with status 1 before
any input file is read. -/
theorem c3_mutually_exclusive (c : Collab) (p ver : String) (o : Options) (fs : FS)
    (a b : String) (hv : o.version = false)
    (ho : o.output_file = some a) (ha : a ≠ "")
    (hp : o.output_path = some b) (hb : b ≠ "") :
    run c p ver o fs = (dieEvents c p mutualMsg, fs, Outcome.exited 1) := by
  have hversion : ¬(o.version = true) := by rw [hv]; exact Bool.false_ne_true
  have hmx : (truthy o.output_path && truthy o.output_file) = true := by
    rw [ho, hp]
    simp [truthy, bne_iff_ne, ha, hb]
  unfold run
  rw [if_neg hversion, if_pos hmx]

/-- C3, witness: `-o x -p y` without -V dies with the mutual-exclusion
message. -/
theorem c3_witness :
    run collab0 "id2xml" "1.0" opts3w fs0
      = (dieEvents collab0 "id2xml" mutualMsg, fs0, Outcome.exited 1) :=
  c3_mutually_exclusive collab0 "id2xml" "1.0" opts3w fs0 "x" "y" rfl rfl (by decide) rfl (by decide)

/-- C4: in strip-only mode, the single output write of the per-file step
carries exactly the text fields of the stripped line sequence joined with
newlines plus one trailing newline, to the derived destination. -/
theorem c4_strip_output (c : Collab) (p : String) (o : Options) (fs : FS)
    (f outf txt : String) (hso : o.strip_only = true)
    (hD : deriveOutf c p o fs f = Except.ok outf) (hr : fs.read? f = some txt) :
    (processFile c p o fs f).1.filter isOutWrite
      = [Event.outWrite (if o.output_file == some "-" then "<stdout>" else outf)
          (String.intercalate "\n" ((strip_pagebreaks c.tmpl txt).map Line.txt) ++ "\n")] := by
  unfold processFile
  rw [hD, hr]
  simp [hso, List.filter_append, noteEvents_filter, isOutWrite]

/-- C4, witness: stripping the two-line draft writes `l1\nl2\n` to `a.raw`. -/
theorem c4_witness :
    (processFile collab0 "id2xml" opts4 fsA "a.txt").1.filter isOutWrite
      = [Event.outWrite "a.raw" "l1\nl2\n"] := by
  rw [c4_strip_output collab0 "id2xml" opts4 fsA "a.txt" "a.raw" "l1\nl2" rfl (by decide) (by decide)]
  decide

/-- C5: applying the page-break stripper's line filter to the line sequence
it has already produced returns that sequence unchanged: stripping twice
equals stripping once. -/
theorem c5_strip_idempotent (tmpl : String → Bool) (txt : String) :
    stripLines tmpl (strip_pagebreaks tmpl txt) = strip_pagebreaks tmpl txt := by
  unfold strip_pagebreaks stripLines
  rw [List.filter_filter]
  simp

/-- C6: an invocation that parses successfully and contains none of -2,
--v2, -3, --v3 yields options with schema v2, and every call into the
conversion engine during the run passes schema v2. -/
theorem c6_schema_default (argv : List String) (o : Options)
    (c : Collab) (p ver : String) (fs : FS) (nm sc : String)
    (hp : parseArgs argv = some o)
    (h2 : "-2" ∉ argv) (h3 : "--v2" ∉ argv) (h4 : "-3" ∉ argv) (h5 : "--v3" ∉ argv) :
    o.schema = "v2"
    ∧ (Event.convertCall nm sc ∈ (run c p ver o fs).1 → sc = "v2") := by
  have hs := parseArgs_schema argv o hp h2 h3 h4 h5
  exact ⟨hs, fun hmem => (run_convert_schema c p ver o fs nm sc hmem).trans hs⟩

/-- C6, witness: parsing `draft.txt` alone gives schema v2, and the
conversion call the run makes for it indeed carries v2. -/
theorem c6_witness :
    opts6.schema = "v2"
    ∧ (Event.convertCall "draft.txt" "v2" ∈ (run collab0 "id2xml" "1.0" opts6 fsD).1 → "v2" = "v2") :=
  c6_schema_default ["draft.txt"] opts6 collab0 "id2xml" "1.0" fsD "draft.txt" "v2"
    (by decide) (by decide) (by decide) (by decide) (by decide)

/-- C7: a message passed to the non-fatal notification path is written to
stderr exactly when quiet mode is not set, every event it produces is a
stderr write, and the quiet flag never changes the run's final outcome. -/
theorem c7_note_writes_iff_not_quiet (c : Collab) (o : Options) (s : String) :
    ((∃ m, Event.errWrite m ∈ noteEvents c o s) ↔ o.quiet = false)
    ∧ (∀ e ∈ noteEvents c o s, ∃ m, e = Event.errWrite m)
    ∧ (∀ (p ver : String) (fs : FS) (b : Bool),
        (run c p ver { o with quiet := b } fs).2.2 = (run c p ver o fs).2.2) := by
  refine ⟨?_, noteEvents_errOnly c o s, fun p ver fs b => congrArg Prod.snd (run_quiet c p ver o fs b).2⟩
  by_cases hq : o.quiet <;> simp [noteEvents, hq]

/-- C8: two runs that differ only in the quiet flag write the same bytes to
the same output destinations, leave the same final file system, and end
with the same outcome; quiet changes only stderr diagnostics. -/
theorem c8_quiet_invariant (c : Collab) (p ver : String) (o : Options) (fs : FS) (b1 b2 : Bool) :
    ((run c p ver { o with quiet := b1 } fs).1.filter isOutWrite
      = (run c p ver { o with quiet := b2 } fs).1.filter isOutWrite)
    ∧ (run c p ver { o with quiet := b1 } fs).2.1 = (run c p ver { o with quiet := b2 } fs).2.1
    ∧ (run c p ver { o with quiet := b1 } fs).2.2 = (run c p ver { o with quiet := b2 } fs).2.2 := by
  obtain ⟨e1, p1⟩ := run_quiet c p ver o fs b1
  obtain ⟨e2, p2⟩ := run_quiet c p ver o fs b2
  refine ⟨e1.trans e2.symm, ?_, ?_⟩
  · rw [congrArg Prod.fst p1, congrArg Prod.fst p2]
  · rw [congrArg Prod.snd p1, congrArg Prod.snd p2]

/-- C9: with neither -o nor -p supplied, the output path is the input path
with its suffix replaced by `.raw` in strip-only mode and `.xml` otherwise;
and in conversion mode, when the implied output file already exists, the
file loop dies with the implied-file message and exits 1 without writing. -/
theorem c9_implied_output (c : Collab) (p : String) (o : Options) (fs : FS)
    (f : String) (rest : List String)
    (h1 : truthy o.output_file = false) (h2 : truthy o.output_path = false) :
    (o.strip_only = true → deriveOutf c p o fs f = Except.ok (withSuffix f ".raw"))
    ∧ (o.strip_only = false → fs.existsFile (withSuffix f ".xml") = false →
        deriveOutf c p o fs f = Except.ok (withSuffix f ".xml"))
    ∧ (o.strip_only = false → fs.existsFile (withSuffix f ".xml") = true →
        runLoop c p o fs (f :: rest)
          = (dieEvents c p (impliedMsg (withSuffix f ".xml") p), fs, Outcome.exited 1)) := by
  have hno : ¬(truthy o.output_file = true) := by rw [h1]; exact Bool.false_ne_true
  have hnp : ¬(truthy o.output_path = true) := by rw [h2]; exact Bool.false_ne_true
  refine ⟨?_, ?_, ?_⟩
  · intro hso
    unfold deriveOutf
    rw [if_neg hno, if_neg hnp]
    simp [hso]
  · intro hso hex
    unfold deriveOutf
    rw [if_neg hno, if_neg hnp]
    simp [hso, hex]
  · intro hso hex
    have hDO : deriveOutf c p o fs f
        = Except.error (dieEvents c p (impliedMsg (withSuffix f ".xml") p)) := by
      unfold deriveOutf
      rw [if_neg hno, if_neg hnp]
      simp [hso, hex]
    have hPF : processFile c p o fs f
        = (dieEvents c p (impliedMsg (withSuffix f ".xml") p), fs, some (Outcome.exited 1)) := by
      unfold processFile
      rw [hDO]
    unfold runLoop
    rw [hPF]

/-- C9, witness: converting `a.txt` while `a.xml` exists dies with the
implied-file message; in strip-only mode the implied output is `a.raw`. -/
theorem c9_witness :
    runLoop collab0 "id2xml" defaultOptions fsX ["a.txt"]
      = (dieEvents collab0 "id2xml" (impliedMsg (withSuffix "a.txt" ".xml") "id2xml"), fsX,
          Outcome.exited 1) :=
  (c9_implied_output collab0 "id2xml" defaultOptions fsX "a.txt" [] rfl rfl).2.2 rfl (by decide)

/-- C10, counterexample to the claim as stated: an invocation containing
-V together with an unrecognized option fails during argument parsing with
status 2 and never prints the version. -/
theorem c10_counterexample :
    "-V" ∈ ["-V", "--no-such-option"]
    ∧ (main collab0 "id2xml" "1.0" ["-V", "--no-such-option"] fs0).2.2 = Outcome.exited 2 := by
  refine ⟨by decide, ?_⟩
  decide

/-- C10 (amended): for every invocation whose argument vector parses
successfully and contains -V or --version, the program prints the program
name and version to stdout and exits with status 0, with no other event:
in particular before the mutually-exclusive-output and stream checks and before any file is
read. -/
theorem c10_version_precedence (c : Collab) (p ver : String) (argv : List String)
    (o : Options) (fs : FS)
    (hp : parseArgs argv = some o) (hv : "-V" ∈ argv ∨ "--version" ∈ argv) :
    main c p ver argv fs = ([Event.outWrite "<stdout>" (versionLine p ver)], fs, Outcome.exited 0) := by
  have hver := parseArgs_version argv o hp hv
  unfold main
  rw [hp]
  show run c p ver o fs = _
  unfold run
  rw [if_pos hver]

/-- C10, witness: `id2xml -V` prints `id2xml 1.0` and exits 0. -/
theorem c10_witness :
    main collab0 "id2xml" "1.0" ["-V"] fs0
      = ([Event.outWrite "<stdout>" (versionLine "id2xml" "1.0")], fs0, Outcome.exited 0) :=
  c10_version_precedence collab0 "id2xml" "1.0" ["-V"]
    { defaultOptions with version := true } fs0 (by decide) (Or.inl (by decide))

end Id2xml
